import Mathlib

set_option maxRecDepth 100000

/-
Verification development for the PDF metadata scrubber (pdf_scrub.py).

The Python module is shallowly embedded: byte buffers become `List Nat`
(each entry a byte value 0..255, or `Fin 256` where a 256-bucket histogram
is involved), PDF dictionaries become `String → Option String`, fallible
operations become `Except`, and the orchestration loop becomes a pure
function over an environment that records the outcome of each I/O step.
Machine integers do not overflow in any modelled code path, so Nat/Int are
used directly.
-/

/-! ## Byte-buffer utilities (Python bytes / bytearray primitives) -/

/-- Byte values of a string, via ASCII/Unicode code points (mirrors how the
Python source compares literal byte strings against file content). -/
def toBytes (s : String) : List Nat :=
  s.toList.map Char.toNat

/-- Python bytes.lower: ASCII uppercase letters are shifted by 32, all other
bytes unchanged. -/
def lowerByte (b : Nat) : Nat :=
  if 65 ≤ b && b ≤ 90 then b + 32 else b

/-- Lowercasing of a whole buffer, as in value_content.lower(). -/
def lowerBytes (l : List Nat) : List Nat :=
  l.map lowerByte

/-- A run of n ASCII spaces, the padding used for every substitution. -/
def spaces (n : Nat) : List Nat :=
  List.replicate n 32

/-- Python membership test b in s for byte strings: does pat occur as a
contiguous subsequence of s? -/
def seqContains [BEq α] (pat : List α) : List α → Bool
  | [] => pat.isEmpty
  | a :: rest => pat.isPrefixOf (a :: rest) || seqContains pat rest

/-- Python bytes.find(pat, i): the least position ≥ i where pat occurs whole
inside content, else none. The fuel argument only bounds the scan; it is
instantiated with content.length + 1, which is enough for every start. -/
def findFromAux (content pat : List Nat) : Nat → Nat → Option Nat
  | 0, _ => none
  | fuel + 1, i =>
    if i + pat.length ≤ content.length then
      if pat.isPrefixOf (content.drop i) then some i
      else findFromAux content pat fuel (i + 1)
    else none

/-- Python content.find(pattern, start). -/
def findFrom (content pat : List Nat) (start : Nat) : Option Nat :=
  findFromAux content pat (content.length + 1) start

/-- Python bytes.replace(pat, rep): leftmost, non-overlapping. The fuel is
instantiated with s.length, which is enough since every step consumes at
least one element of s. -/
def replaceBytesAux (pat rep : List Nat) : Nat → List Nat → List Nat
  | 0, s => s
  | _ + 1, [] => []
  | fuel + 1, c :: rest =>
    if pat.isPrefixOf (c :: rest) then
      rep ++ replaceBytesAux pat rep fuel ((c :: rest).drop pat.length)
    else c :: replaceBytesAux pat rep fuel rest

/-- Python s.replace(pat, rep); the sanitizer never calls it with an empty
pattern, and for totality that case returns s unchanged. -/
def replaceBytes (s pat rep : List Nat) : List Nat :=
  if pat.isEmpty then s else replaceBytesAux pat rep s.length s

/-- Python slice content[a:b]. -/
def sliceOf (l : List Nat) (a b : Nat) : List Nat :=
  (l.drop a).take (b - a)

/-- Python bytearray slice assignment content[a:b] = v (the scanner only
performs it with a ≤ b ≤ content.length). -/
def setSlice (l : List Nat) (a b : Nat) (v : List Nat) : List Nat :=
  l.take a ++ v ++ l.drop b

/-! ## Signature Scanner (sanitize_binary_signatures, lines 544-684) -/

/-- The fixed case-variant vendor token list of sanitize_binary_signatures. -/
def attribution_patterns : List (List Nat) :=
  [toBytes "Adobe", toBytes "ADOBE", toBytes "adobe",
   toBytes "Microsoft", toBytes "MICROSOFT", toBytes "microsoft",
   toBytes "LibreOffice", toBytes "LIBREOFFICE", toBytes "libreoffice",
   toBytes "OpenOffice", toBytes "OPENOFFICE", toBytes "openoffice",
   toBytes "Word", toBytes "WORD", toBytes "word",
   toBytes "Acrobat", toBytes "ACROBAT", toBytes "acrobat",
   toBytes "Writer", toBytes "WRITER", toBytes "writer",
   toBytes "Pages", toBytes "PAGES", toBytes "pages",
   toBytes "LaTeX", toBytes "LATEX", toBytes "latex",
   toBytes "PDFCreator", toBytes "PDFCREATOR", toBytes "pdfcreator",
   toBytes "PDFMaker", toBytes "PDFMAKER", toBytes "pdfmaker",
   toBytes "Distiller", toBytes "DISTILLER", toBytes "distiller",
   toBytes "PowerPoint", toBytes "POWERPOINT", toBytes "powerpoint",
   toBytes "Excel", toBytes "EXCEL", toBytes "excel",
   toBytes "Keynote", toBytes "KEYNOTE", toBytes "keynote"]

/-- The metadata key tokens whose value spans the scoped scan resolves. -/
def metadata_strings : List (List Nat) :=
  [toBytes "/Producer", toBytes "/Creator", toBytes "/Author",
   toBytes "/Title", toBytes "/Subject", toBytes "/Keywords",
   toBytes "/Application", toBytes "/CreationDate", toBytes "/ModDate"]

/-- The inner while-loop of the scoped scan (lines 646-661): starting at
position ve with literal-string depth paren, advance until the value span
closes. A byte 40 is an opening parenthesis: depth rises and delimiter
detection is suppressed; 41 closes the span (at the byte after it) when the
depth returns to exactly zero; outside any open literal string a 47 (slash)
or a 62 62 pair terminates the span at the current byte; otherwise advance.
Running off the end of the buffer ends the span there. The fuel is
instantiated with content.length + 1, sufficient since ve strictly
increases and the loop runs only while ve < content.length. -/
def scanValueEnd (content : List Nat) : Nat → Nat → Int → Bool → Nat
  | 0, ve, _, _ => ve
  | fuel + 1, ve, paren, inStr =>
    match content.get? ve with
    | none => ve
    | some c =>
      if c = 40 then scanValueEnd content fuel (ve + 1) (paren + 1) true
      else if c = 41 then
        if paren - 1 = 0 then ve + 1
        else scanValueEnd content fuel (ve + 1) (paren - 1) inStr
      else if !inStr && (c == 47 || (c == 62 && content.get? (ve + 1) == some 62)) then ve
      else scanValueEnd content fuel (ve + 1) paren inStr

/-- The end of the value span that starts at valueStart (lines 642-661). -/
def findValueEnd (content : List Nat) (valueStart : Nat) : Nat :=
  scanValueEnd content (content.length + 1) valueStart 0 false

/-- One step of the per-value substitution loop (lines 665-672): if the
lowercased value contains the lowercased vendor token, replace its
exact-case occurrences by equal-length space padding and record that a
change was made. -/
def sanitizeValueStep (acc : List Nat × Bool) (ap : List Nat) : List Nat × Bool :=
  if seqContains (lowerBytes ap) (lowerBytes acc.1) then
    (replaceBytes acc.1 ap (spaces ap.length), true)
  else acc

/-- The full pass of all vendor tokens over one extracted value span. -/
def sanitizeValue (vc : List Nat) : List Nat × Bool :=
  attribution_patterns.foldl sanitizeValueStep (vc, false)

/-- The while True loop of the scoped scan for one metadata key (lines
633-674): find the next key occurrence at or after start, resolve its value
span, sanitize the span in place, and resume from the end of the resolved
span. The fuel is instantiated with content.length + 1, sufficient since
the cursor strictly increases and stays ≤ content.length. -/
def scrubKeyAux (pat : List Nat) : Nat → List Nat → Nat → Bool → List Nat × Bool
  | 0, content, _, ch => (content, ch)
  | fuel + 1, content, start, ch =>
    match findFrom content pat start with
    | none => (content, ch)
    | some pos =>
      let valueStart := pos + pat.length
      let valueEnd := findValueEnd content valueStart
      let vc := sliceOf content valueStart valueEnd
      let r := sanitizeValue vc
      let content2 := if r.2 then setSlice content valueStart valueEnd r.1 else content
      scrubKeyAux pat fuel content2 valueEnd (ch || r.2)

/-- Scoped scan of one metadata key over the whole buffer. -/
def scrubKey (content : List Nat) (pat : List Nat) (ch : Bool) : List Nat × Bool :=
  scrubKeyAux pat (content.length + 1) content 0 ch

/-- The scoped pass of sanitize_binary_signatures (lines 631-674): the scan
for each known metadata key in turn, threading content and changes flag. -/
def scoped_signature_scan (content : List Nat) (ch : Bool) : List Nat × Bool :=
  metadata_strings.foldl (fun acc pat => scrubKey acc.1 pat acc.2) (content, ch)

/-- The unscoped pass of sanitize_binary_signatures (lines 610-616):
replace every exact occurrence of each vendor token anywhere in the buffer
with equal-length space padding. -/
def unscoped_signature_scan (content : List Nat) : List Nat × Bool :=
  attribution_patterns.foldl
    (fun acc pat =>
      if seqContains pat acc.1 then (replaceBytes acc.1 pat (spaces pat.length), true)
      else acc)
    (content, false)

/-- sanitize_binary_signatures (lines 544-684) as a buffer transformation:
the unscoped vendor-token pass followed by the scoped metadata-key pass;
returns the rewritten bytes and the changes_made flag. File I/O and the
exception path around it are outside the byte-level model. -/
def sanitize_binary_signatures (content : List Nat) : List Nat × Bool :=
  let u := unscoped_signature_scan content
  scoped_signature_scan u.1 u.2

/-- The post-save pass _replace_binary_signatures (lines 515-542): the two
case variants of the canonical vendor token are replaced by five spaces
each; the file is rewritten only when something matched, which is
observationally the same buffer transformation. -/
def _replace_binary_signatures (content : List Nat) : List Nat :=
  [toBytes "Adobe", toBytes "adobe"].foldl
    (fun c pat => if seqContains pat c then replaceBytes c pat (spaces 5) else c)
    content

/-! ## Entropy Analyzer (calculate_entropy, lines 221-246) -/

/-- calculate_entropy: Shannon entropy over a 256-bucket byte histogram.
Empty input returns 0; otherwise each non-zero bucket contributes
minus p * log2 p with p = count / length. Python floats are modelled as
real numbers. -/
noncomputable def calculate_entropy (data : List (Fin 256)) : ℝ :=
  if data.length = 0 then 0
  else
    ∑ b : Fin 256,
      if 0 < data.count b then
        -(((data.count b : ℝ) / (data.length : ℝ)) *
          Real.logb 2 ((data.count b : ℝ) / (data.length : ℝ)))
      else 0

/-- The entropy threshold for suspicious data (constructor, line 46). -/
noncomputable def steganography_threshold : ℝ := 7.5

/-! ## Structural Sanitizer (sanitize_embedded_objects, lines 290-513)

PDF dictionaries are modelled as partial maps from key names to the string
rendering of their values; pikepdf in-place mutation becomes functional
update. A document handle carries the root dictionary, the optional Names
dictionary inside the root, the trailer, and the pages with their optional
annotation arrays and font resources. Saving to bytes and the exception
paths around it are I/O and stay outside the structural model. -/

/-- A PDF dictionary: key to string rendering of the stored value. -/
abbrev Dict := String → Option String

/-- Deleting a key, as in del d[key]. -/
def Dict.erase (d : Dict) (k : String) : Dict :=
  fun x => if x = k then none else d x

/-- Setting a key, as in d[key] = value. -/
def Dict.set (d : Dict) (k : String) (v : String) : Dict :=
  fun x => if x = k then some v else d x

/-- A font object: its dictionary and its optional FontDescriptor. -/
structure FontObj where
  fields : Dict
  descriptor : Option Dict

/-- A page: the optional /Annots array and the optional /Resources /Font
map (font resource name to font object). -/
structure PageObj where
  annots : Option (List Dict)
  fonts : Option (List (String × FontObj))

/-- A document handle: root dictionary, the optional /Names dictionary
inside the root, the trailer dictionary, and the pages. -/
structure PdfDoc where
  root : Dict
  rootNames : Option Dict
  trailer : Dict
  pages : List PageObj

/-- The danger-listed root substructures (lines 303-316). -/
def dangerous_objects : List String :=
  ["/JavaScript", "/JS", "/EmbeddedFiles", "/Multimedia", "/3D", "/RichMedia",
   "/FileAttachment", "/Sound", "/Movie", "/Screen", "/Widget", "/Popup"]

/-- The annotation subtype allow-list (lines 368-382). -/
def safe_types : List String :=
  ["/Text", "/FreeText", "/Line", "/Square", "/Circle", "/Polygon",
   "/PolyLine", "/Highlight", "/Underline", "/Squiggly", "/StrikeOut",
   "/Stamp", "/Ink"]

/-- Metadata-bearing fields stripped from kept annotations (lines 385-393). -/
def annot_metadata_keys : List String :=
  ["/T", "/Contents", "/RC", "/CreationDate", "/M", "/NM", "/Subj"]

/-- Stripping the metadata fields of one kept annotation (lines 394-396). -/
def stripAnnotMeta (a : Dict) : Dict :=
  annot_metadata_keys.foldl Dict.erase a

/-- The keep-or-drop decision for one annotation (lines 364-397): an
annotation is kept only when it carries a /Subtype in the allow-list, and a
kept annotation has its metadata fields stripped. -/
def keepAnnot (a : Dict) : Option Dict :=
  match a "/Subtype" with
  | some st => if st ∈ safe_types then some (stripAnnotMeta a) else none
  | none => none

/-- The per-page annotation rewrite (lines 361-403): filter and strip, then
either install the surviving list or delete /Annots when nothing survived. -/
def sanitizeAnnots : Option (List Dict) → Option (List Dict)
  | none => none
  | some l =>
    let kept := l.filterMap keepAnnot
    if kept.isEmpty then none else some kept

/-- _sanitize_annotations (lines 355-403), over every page. -/
def _sanitize_annotations (doc : PdfDoc) : PdfDoc :=
  { doc with pages := doc.pages.map fun p => { p with annots := sanitizeAnnots p.annots } }

/-- The font attribution-bearing fields (lines 414-428). -/
def font_attribution_keys : List String :=
  ["/BaseFont", "/Name", "/Registry", "/Ordering", "/Supplement",
   "/FontName", "/FontFamily", "/FontStretch", "/FontWeight",
   "/Creator", "/Producer", "/CreationDate", "/ModDate"]

/-- The vendor/brand/typeface term list for font values (lines 435-446). -/
def font_attribution_patterns : List String :=
  ["adobe", "microsoft", "pages", "word", "acrobat", "times", "helvetica",
   "arial", "symbol", "courier"]

/-- The font fields deleted unconditionally when present and non-matching
(lines 456-466). -/
def font_always_remove : List String :=
  ["/Registry", "/Ordering", "/Supplement", "/Creator", "/Producer",
   "/CreationDate", "/ModDate"]

/-- Python value.lower() for the string rendering of a field value. -/
def lowerStr (s : String) : String :=
  String.mk (s.toList.map Char.toLower)

/-- Python any(attr in value.lower() for attr in patterns). -/
def containsAttr (v : String) (pats : List String) : Bool :=
  pats.any fun p => seqContains p.toList (lowerStr v).toList

/-- Processing of one attribution key of a font dictionary (lines 430-469):
a matching value is replaced by the generic /F1 for /BaseFont, by the
generic F for /FontName and /FontFamily, and deleted otherwise; a
non-matching value is still deleted when the key is on the unconditional
removal list. -/
def processFontKey (d : Dict) (k : String) : Dict :=
  match d k with
  | none => d
  | some v =>
    if containsAttr v font_attribution_patterns then
      if k = "/BaseFont" then d.set k "/F1"
      else if k = "/FontName" ∨ k = "/FontFamily" then d.set k "F"
      else d.erase k
    else if k ∈ font_always_remove then d.erase k
    else d

/-- The descriptor fields inspected by _sanitize_font_descriptor
(lines 481-488). -/
def desc_keys : List String :=
  ["/FontName", "/FontFamily", "/FontStretch", "/FontWeight",
   "/Registry", "/Ordering"]

/-- The descriptor vendor term list (lines 494-503). -/
def desc_attribution_patterns : List String :=
  ["adobe", "microsoft", "pages", "word", "acrobat", "times", "helvetica",
   "arial"]

/-- Descriptor fields always removed when present and non-matching
(line 510). -/
def desc_always_remove : List String := ["/Registry", "/Ordering"]

/-- Processing of one descriptor key (lines 490-513). -/
def processDescKey (d : Dict) (k : String) : Dict :=
  match d k with
  | none => d
  | some v =>
    if containsAttr v desc_attribution_patterns then
      if k = "/FontName" ∨ k = "/FontFamily" then d.set k "F"
      else d.erase k
    else if k ∈ desc_always_remove then d.erase k
    else d

/-- _sanitize_font_descriptor (lines 475-513). -/
def _sanitize_font_descriptor (d : Dict) : Dict :=
  desc_keys.foldl processDescKey d

/-- Sanitization of one font object: the attribution-key loop followed by
the descriptor recursion (lines 412-473). -/
def sanitizeFontObj (f : FontObj) : FontObj :=
  { fields := font_attribution_keys.foldl processFontKey f.fields,
    descriptor := f.descriptor.map _sanitize_font_descriptor }

/-- _sanitize_fonts (lines 404-473), over every page with font resources. -/
def _sanitize_fonts (doc : PdfDoc) : PdfDoc :=
  { doc with
    pages := doc.pages.map fun p =>
      { p with fonts := p.fonts.map (List.map fun nf => (nf.1, sanitizeFontObj nf.2)) } }

/-- sanitize_embedded_objects (lines 290-353) as a transformation of the
document handle: danger-listed keys are removed from the root and from the
Names dictionary, annotations and fonts are sanitized, /AcroForm and
/Outlines are removed from the root, and /Info is removed from the trailer.
The subsequent save-to-bytes and the byte-level _replace_binary_signatures
pass act on the serialized file and are modelled separately. -/
def sanitize_embedded_objects (doc : PdfDoc) : PdfDoc :=
  let d1 := dangerous_objects.foldl
    (fun d k =>
      { d with root := d.root.erase k, rootNames := d.rootNames.map (Dict.erase · k) })
    doc
  let d2 := _sanitize_annotations d1
  let d3 := _sanitize_fonts d2
  let d4 := { d3 with root := (d3.root.erase "/AcroForm").erase "/Outlines" }
  { d4 with trailer := d4.trailer.erase "/Info" }

/-! ## Forensic Validator (forensic_validation, lines 866-984)

Each of the seven checks consumes the result of an I/O probe of the file
snapshot; the probes are collected in a PdfSnapshot record, with Except
capturing the exception paths that the source converts into error entries.
The computation from probe results to check results and to the aggregate
verdict follows the source. -/

/-- What the PyPDF2 reading path of a file exposes (lines 48-70). -/
structure Pypdf2View where
  metadata : List (String × String)
  hasXmp : Bool

/-- extract_metadata_pypdf2: merge the reader metadata and add the XMP
marker entry; a raised exception becomes a single error entry. -/
def extract_metadata_pypdf2 : Except String Pypdf2View → List (String × String)
  | .error e => [("error", e)]
  | .ok v =>
    v.metadata ++ (if v.hasXmp then [("XMP", "XMP metadata present")] else [])

/-- What the pikepdf reading path of a file exposes (lines 72-100). -/
structure PikepdfView where
  docinfo : List (String × String)
  hasXmp : Bool
  pageHasMetadata : List Bool

/-- extract_metadata_pikepdf: document info entries, the XMP marker, and one
marker entry per page that carries a /Metadata reference; a raised
exception becomes a single error entry. -/
def extract_metadata_pikepdf : Except String PikepdfView → List (String × String)
  | .error e => [("error", e)]
  | .ok v =>
    v.docinfo
      ++ (if v.hasXmp then [("XMP", "XMP metadata present")] else [])
      ++ v.pageHasMetadata.enum.filterMap fun ib =>
          if ib.2 then
            some ("Page_" ++ toString ib.1 ++ "_Metadata", "Page metadata present")
          else none

/-- The canonical metadata-key and XMP byte patterns of check 3
(lines 898-913). -/
def binary_patterns : List String :=
  ["/Title", "/Author", "/Subject", "/Creator", "/Producer", "/CreationDate",
   "/ModDate", "/Keywords", "/Application", "<?xpacket", "<x:xmpmeta",
   "xmp:", "pdf:", "dc:"]

/-- Check 3 (lines 915-923): the unscoped byte-pattern search; a read
failure contributes a single error entry to the found list. -/
def binary_pattern_search : Except String (List Nat) → List String
  | .error e => ["Binary search error: " ++ e]
  | .ok content => binary_patterns.filter fun p => seqContains (toBytes p) content

/-- One readable object of the document, as exposed to
detect_steganography: its string rendering and its raw bytes. Objects
without readable bytes, and objects whose read raises, are skipped by the
source and are therefore not part of the list. -/
structure StegoObj where
  objId : String
  data : List (Fin 256)

/-- A high-entropy finding (lines 274-280). -/
structure StegoFinding where
  object_id : String
  entropy : ℝ
  data_size : Nat

/-- The result record of detect_steganography (lines 257-262); the unused
suspicious_streams and unusual_patterns lists stay empty in the source and
are omitted. -/
structure StegoResults where
  high_entropy_objects : List StegoFinding
  steganography_detected : Bool
  errorMsg : Option String

open Classical in
/-- One iteration of the object loop of detect_steganography (lines
266-284): an object longer than 100 bytes whose entropy exceeds the
threshold is recorded and flips the detected flag. -/
noncomputable def stegoStep (acc : List StegoFinding × Bool) (obj : StegoObj) :
    List StegoFinding × Bool :=
  if 100 < obj.data.length ∧ steganography_threshold < calculate_entropy obj.data then
    (acc.1 ++ [⟨obj.objId, calculate_entropy obj.data, obj.data.length⟩], true)
  else acc

/-- detect_steganography (lines 248-288): fold the object loop; a failed
open yields empty findings with an error note. -/
noncomputable def detect_steganography (inp : Except String (List StegoObj)) : StegoResults :=
  match inp with
  | .error e => { high_entropy_objects := [], steganography_detected := false,
                  errorMsg := some e }
  | .ok objs =>
    let r := objs.foldl stegoStep ([], false)
    { high_entropy_objects := r.1, steganography_detected := r.2, errorMsg := none }

/-- Page-level metadata keys sought by check 5 (lines 774-782). -/
def adv_page_keys : List String :=
  ["/Metadata", "/PieceInfo", "/SeparationInfo", "/Tabs",
   "/TemplateInstantiated", "/PresSteps", "/UserUnit"]

/-- Annotation metadata keys sought by check 5 (lines 794-804). -/
def adv_annot_keys : List String :=
  ["/T", "/Contents", "/RC", "/CreationDate", "/M", "/NM", "/Subj", "/IT",
   "/ExData"]

/-- Font keys inspected by check 5 (lines 818-824). -/
def adv_font_keys : List String :=
  ["/BaseFont", "/Name", "/Registry", "/Ordering", "/Supplement"]

/-- The attribution terms of check 5 (lines 829-838). -/
def adv_attribution_terms : List String :=
  ["adobe", "microsoft", "pages", "word", "acrobat", "times", "helvetica",
   "arial"]

/-- Values never flagged as font attribution (line 839). -/
def generic_values : List String := ["/GenericFont", "Generic", "None"]

/-- One page as seen by detect_advanced_metadata: the keys present on the
page dictionary, the optional annotation array (each annotation its present
key/value pairs), and the optional font resources. -/
structure AdvPage where
  presentKeys : List String
  annots : Option (List (List (String × String)))
  fonts : Option (List (String × List (String × String)))

/-- The document view consumed by detect_advanced_metadata: its pages and
the raw file bytes used for the attribution-signature search. -/
structure AdvView where
  pages : List AdvPage
  content : List Nat

/-- The result record of detect_advanced_metadata (lines 756-765). The four
finding lists the source initializes but never appends to are kept, so that
the found-iff-details invariant is stated over the full record. Formatting
details of the collected entries (dict rendering, 50-character truncation)
are abstracted to the identifying data. -/
structure AdvResults where
  page_metadata : List (Nat × List String)
  annotation_metadata : List (Nat × List (String × String))
  form_metadata : List String
  bookmark_metadata : List String
  thumbnail_metadata : List String
  color_profile_metadata : List String
  font_metadata : List (List (String × String))
  attribution_signatures : List String
  errorMsg : Option String

/-- The per-annotation metadata collection of check 5 (lines 791-811). -/
def advAnnotMeta (a : List (String × String)) : List (String × String) :=
  adv_annot_keys.filterMap fun k => (List.lookup k a).map fun v => (k, v.take 50)

/-- The per-font attribution collection of check 5 (lines 816-846): a value
is flagged only when it is not a generic placeholder and contains an
attribution term case-insensitively. -/
def advFontInfo (fields : List (String × String)) : List (String × String) :=
  adv_font_keys.filterMap fun k =>
    (List.lookup k fields).bind fun v =>
      if v ∈ generic_values then none
      else if containsAttr v adv_attribution_terms then some (k, v)
      else none

/-- detect_advanced_metadata (lines 747-864): page-level keys, annotation
metadata, font attribution values, and the unscoped search for the one
canonical vendor token; a raised exception yields empty findings with an
error note. -/
def detect_advanced_metadata (inp : Except String AdvView) : AdvResults :=
  match inp with
  | .error e =>
    { page_metadata := [], annotation_metadata := [], form_metadata := [],
      bookmark_metadata := [], thumbnail_metadata := [],
      color_profile_metadata := [], font_metadata := [],
      attribution_signatures := [], errorMsg := some e }
  | .ok v =>
    { page_metadata :=
        v.pages.enum.filterMap fun ip =>
          let keys := adv_page_keys.filter (· ∈ ip.2.presentKeys)
          if keys.isEmpty then none else some (ip.1, keys),
      annotation_metadata :=
        v.pages.enum.flatMap fun ip =>
          match ip.2.annots with
          | none => []
          | some annots =>
            annots.filterMap fun a =>
              let am := advAnnotMeta a
              if am.isEmpty then none else some (ip.1, am),
      form_metadata := [],
      bookmark_metadata := [],
      thumbnail_metadata := [],
      color_profile_metadata := [],
      font_metadata :=
        v.pages.flatMap fun p =>
          match p.fonts with
          | none => []
          | some fonts =>
            fonts.filterMap fun nf =>
              let fi := advFontInfo nf.2
              if fi.isEmpty then none else some fi,
      attribution_signatures :=
        if seqContains (toBytes "Adobe") v.content then ["Adobe"] else [],
      errorMsg := none }

/-- Emptiness of every finding collection of an AdvResults record. -/
def AdvResults.findingsEmpty (a : AdvResults) : Bool :=
  a.page_metadata.isEmpty && a.annotation_metadata.isEmpty &&
    a.form_metadata.isEmpty && a.bookmark_metadata.isEmpty &&
    a.thumbnail_metadata.isEmpty && a.color_profile_metadata.isEmpty &&
    a.font_metadata.isEmpty && a.attribution_signatures.isEmpty

/-- The result record of validate_pdf_structure (lines 686-745). Its
computation reopens the file with two readers and is I/O throughout, so the
check is modelled as an opaque probe result; no claim depends on how it is
computed, only on the fact that it never feeds the aggregate verdict. -/
structure StructuralResults where
  valid_pdf : Bool
  readable_pages : Nat
  total_pages : Nat
  corrupted_objects : List String
  missing_fonts : List String
  structural_issues : List String

/-- A file snapshot as seen by the seven probes of forensic_validation. -/
structure PdfSnapshot where
  fileSize : Nat
  pypdf2View : Except String Pypdf2View
  pikepdfView : Except String PikepdfView
  rawContent : Except String (List Nat)
  stegoObjects : Except String (List StegoObj)
  advView : Except String AdvView
  structuralView : StructuralResults
  fsTimes : Except String (Int × Int × Int)

/-- A metadata-extraction check result (checks 1 and 2, lines 881-895). -/
structure MetaCheck where
  found_metadata : Bool
  metadata_items : Nat
  details : List (String × String)

/-- The binary-pattern check result (check 3, lines 925-929). -/
structure BinaryCheck where
  found_patterns : Bool
  pattern_count : Nat
  patterns : List String

/-- The steganography check result (check 4, lines 933-937). -/
structure StegoCheck where
  found_suspicious : Bool
  high_entropy_count : Nat
  details : StegoResults

/-- The advanced-metadata check result (check 5, lines 949-952). -/
structure AdvCheck where
  found_metadata : Bool
  details : AdvResults

/-- The aggregate verdict (lines 978-982). -/
structure Assessment where
  metadata_detected : Bool
  scrubbing_successful : Bool
  confidence_level : String

/-- The full result record of forensic_validation (lines 875-984). -/
structure ForensicResults where
  file_size : Nat
  pypdf2_metadata : MetaCheck
  pikepdf_metadata : MetaCheck
  binary_pattern_search : BinaryCheck
  steganography_detection : StegoCheck
  advanced_metadata : AdvCheck
  structural_validation : StructuralResults
  filesystem_metadata : Except String (Int × Int × Int)
  forensic_assessment : Assessment

/-- forensic_validation (lines 866-984): run the seven checks and aggregate
checks 1-5 into the verdict; check 6 is recorded but excluded from the
verdict, and check 7 is informational only. -/
noncomputable def forensic_validation (snap : PdfSnapshot) : ForensicResults :=
  let pypdf2_meta := extract_metadata_pypdf2 snap.pypdf2View
  let pikepdf_meta := extract_metadata_pikepdf snap.pikepdfView
  let found_patterns := binary_pattern_search snap.rawContent
  let stego_results := detect_steganography snap.stegoObjects
  let advanced_meta := detect_advanced_metadata snap.advView
  let has_advanced_metadata :=
    !advanced_meta.page_metadata.isEmpty || !advanced_meta.annotation_metadata.isEmpty ||
      !advanced_meta.font_metadata.isEmpty || !advanced_meta.attribution_signatures.isEmpty
  let has_metadata :=
    !pypdf2_meta.isEmpty || !pikepdf_meta.isEmpty || !found_patterns.isEmpty ||
      stego_results.steganography_detected || has_advanced_metadata
  { file_size := snap.fileSize,
    pypdf2_metadata :=
      { found_metadata := !pypdf2_meta.isEmpty, metadata_items := pypdf2_meta.length,
        details := pypdf2_meta },
    pikepdf_metadata :=
      { found_metadata := !pikepdf_meta.isEmpty, metadata_items := pikepdf_meta.length,
        details := pikepdf_meta },
    binary_pattern_search :=
      { found_patterns := !found_patterns.isEmpty, pattern_count := found_patterns.length,
        patterns := found_patterns },
    steganography_detection :=
      { found_suspicious := stego_results.steganography_detected,
        high_entropy_count := stego_results.high_entropy_objects.length,
        details := stego_results },
    advanced_metadata :=
      { found_metadata := has_advanced_metadata, details := advanced_meta },
    structural_validation := snap.structuralView,
    filesystem_metadata := snap.fsTimes,
    forensic_assessment :=
      { metadata_detected := has_metadata,
        scrubbing_successful := !has_metadata,
        confidence_level := if !has_metadata then "HIGH" else "LOW" } }

/-- The five found flags that feed the aggregate verdict. -/
def fiveFlags (r : ForensicResults) : Bool × Bool × Bool × Bool × Bool :=
  (r.pypdf2_metadata.found_metadata, r.pikepdf_metadata.found_metadata,
   r.binary_pattern_search.found_patterns,
   r.steganography_detection.found_suspicious,
   r.advanced_metadata.found_metadata)

/-! ## Orchestrator (scrub_pdf, lines 986-1071)

The three scrub methods, the embedded-object sanitizer and the validator
verdict are I/O steps; a ScrubEnv records their outcome for one call, and
scrub_pdf becomes a pure function from the environment to an execution
summary: which methods were invoked, which candidate was accepted, which
temporary files are still on disk at exit, and how the call terminated.
shutil.copy2 is the one modelled step that can raise out of the loop, which
the source does not guard with try/finally. -/

/-- Outcome of one scrub method attempt in a given run: whether the method
function returned True, whether sanitize_embedded_objects returned True,
and whether forensic_validation of the sanitized candidate reported
scrubbing_successful. -/
structure MethodBehavior where
  methodSuccess : Bool
  sanitizeSuccess : Bool
  validationClean : Bool

/-- A full strategy success: structural success, sanitizer success, and a
clean validation verdict. -/
def fullSuccess (m : MethodBehavior) : Bool :=
  m.methodSuccess && m.sanitizeSuccess && m.validationClean

/-- The environment of one scrub_pdf call. -/
structure ScrubEnv where
  inputExists : Bool
  outputPreexists : Bool
  m1 : MethodBehavior
  m2 : MethodBehavior
  m3 : MethodBehavior
  copyRaises : Bool

/-- The method names, in the fixed priority order of lines 1007-1011:
pikepdf_advanced is scrub_method_reconstruct, pikepdf_standard is
scrub_method_pikepdf (in-place structural clear), pypdf2 is
scrub_method_pypdf2 (minimal rewrite). -/
def methodNames : List String := ["pikepdf_advanced", "pikepdf_standard", "pypdf2"]

/-- How a scrub_pdf call terminates. -/
inductive ScrubTermination where
  | success
  | failedInput
  | failedAll
  | raised
deriving DecidableEq

/-- Mutable state of the method loop (lines 1013-1054): temp files created
so far (by id, in creation order), the next temp id, the methods invoked,
the accepted method if any, and whether the candidate was copied to the
output path. -/
structure LoopSt where
  temps : List Nat
  nextId : Nat
  invoked : List String
  accepted : Option String
  outputWritten : Bool
deriving DecidableEq

/-- The method loop (lines 1015-1054): per method, create a temp file and
run the method; on success create a second temp file and sanitize; on
sanitizer success validate; on a clean verdict copy the candidate to the
output path (which may raise) and break; otherwise fall through to the next
method. Returns the state and whether an exception escaped. -/
def runMethods (copyRaises : Bool) : List (String × MethodBehavior) → LoopSt → LoopSt × Bool
  | [], st => (st, false)
  | (name, mb) :: rest, st =>
    let st1 : LoopSt :=
      { st with temps := st.temps ++ [st.nextId], nextId := st.nextId + 1,
                invoked := st.invoked ++ [name] }
    if mb.methodSuccess then
      let st2 : LoopSt :=
        { st1 with temps := st1.temps ++ [st1.nextId], nextId := st1.nextId + 1 }
      if mb.sanitizeSuccess then
        if mb.validationClean then
          if copyRaises then (st2, true)
          else ({ st2 with accepted := some name, outputWritten := true }, false)
        else runMethods copyRaises rest st2
      else runMethods copyRaises rest st2
    else runMethods copyRaises rest st1

/-- The execution summary of one scrub_pdf call. reportsReturned is true
exactly when the call returns the success dictionary carrying the original
and final forensic analyses. -/
structure ScrubResult where
  termination : ScrubTermination
  invoked : List String
  accepted : Option String
  tempsRemaining : List Nat
  outputPresent : Bool
  reportsReturned : Bool
deriving DecidableEq

/-- scrub_pdf (lines 986-1071): reject a missing input; run the method loop
over the three strategies in order; afterwards delete the temp files and
decide the result by whether a file exists at the output path. An exception
escaping the loop skips both the cleanup and the result computation. -/
def scrub_pdf (env : ScrubEnv) : ScrubResult :=
  if !env.inputExists then
    { termination := .failedInput, invoked := [], accepted := none,
      tempsRemaining := [], outputPresent := env.outputPreexists,
      reportsReturned := false }
  else
    let r := runMethods env.copyRaises
      [("pikepdf_advanced", env.m1), ("pikepdf_standard", env.m2), ("pypdf2", env.m3)]
      { temps := [], nextId := 0, invoked := [], accepted := none, outputWritten := false }
    if r.2 then
      { termination := .raised, invoked := r.1.invoked, accepted := none,
        tempsRemaining := r.1.temps, outputPresent := env.outputPreexists,
        reportsReturned := false }
    else
      let outputPresent := r.1.outputWritten || env.outputPreexists
      if !outputPresent then
        { termination := .failedAll, invoked := r.1.invoked, accepted := r.1.accepted,
          tempsRemaining := [], outputPresent := false, reportsReturned := false }
      else
        { termination := .success, invoked := r.1.invoked, accepted := r.1.accepted,
          tempsRemaining := [], outputPresent := true, reportsReturned := true }

/-- All three strategies fail to produce an accepted candidate in a run
whose input exists. -/
def allStrategiesFail (env : ScrubEnv) : Prop :=
  env.inputExists = true ∧ fullSuccess env.m1 = false ∧ fullSuccess env.m2 = false ∧
    fullSuccess env.m3 = false

/-- Claim C7 as stated: every call (in which the copy step does not raise)
either succeeds with an accepted candidate, the output file present and the
two reports returned, or fails clearly with no file at the output path; and
whenever every strategy fails the result is the all-methods-failed error
with no output file. -/
def c7_claim : Prop :=
  ∀ env : ScrubEnv, env.copyRaises = false →
    (((scrub_pdf env).termination = .success ∧ (scrub_pdf env).accepted.isSome = true ∧
        (scrub_pdf env).outputPresent = true ∧ (scrub_pdf env).reportsReturned = true) ∨
      ((scrub_pdf env).termination ≠ .success ∧ (scrub_pdf env).outputPresent = false)) ∧
    (allStrategiesFail env →
      (scrub_pdf env).termination = .failedAll ∧ (scrub_pdf env).outputPresent = false)

/-- Claim C8 as stated: after any scrub_pdf call terminates, by early
success, by every strategy failing, or by an unhandled error, every
intermediate temporary file created during the call has been deleted. -/
def c8_claim : Prop :=
  ∀ env : ScrubEnv, (scrub_pdf env).tempsRemaining = []

/-- The environment exhibiting the stale-output counterexample: the input
exists, a file already sits at the output path, and every strategy fails. -/
def staleOutputEnv : ScrubEnv :=
  { inputExists := true, outputPreexists := true,
    m1 := ⟨false, false, false⟩, m2 := ⟨false, false, false⟩,
    m3 := ⟨false, false, false⟩, copyRaises := false }

/-- The environment exhibiting the leaked-temp-files counterexample: the
first strategy passes validation but the copy to the output path raises. -/
def copyRaisesEnv : ScrubEnv :=
  { inputExists := true, outputPreexists := false,
    m1 := ⟨true, true, true⟩, m2 := ⟨false, false, false⟩,
    m3 := ⟨false, false, false⟩, copyRaises := true }

/-! ## Lemmas about the byte-buffer primitives -/

theorem isPrefixOf_length_le {pat s : List Nat} (h : pat.isPrefixOf s = true) :
    pat.length ≤ s.length :=
  (List.isPrefixOf_iff_prefix.mp h).length_le

theorem replaceBytesAux_length (pat rep : List Nat) (h : pat.length = rep.length) :
    ∀ fuel s, (replaceBytesAux pat rep fuel s).length = s.length := by
  intro fuel
  induction fuel with
  | zero => intro s; rfl
  | succ n ih =>
    intro s
    cases s with
    | nil => rfl
    | cons c rest =>
      simp only [replaceBytesAux]
      split
      · next hpre =>
        have hle := isPrefixOf_length_le hpre
        simp only [List.length_append, ih, List.length_drop]
        simp only [List.length_cons] at hle ⊢
        omega
      · simp [ih]

theorem replaceBytes_length {s pat rep : List Nat} (h : pat.length = rep.length) :
    (replaceBytes s pat rep).length = s.length := by
  unfold replaceBytes
  split
  · rfl
  · exact replaceBytesAux_length pat rep h s.length s

theorem sanitizeValue_foldl_length :
    ∀ (ps : List (List Nat)) (acc : List Nat × Bool),
      ((ps.foldl sanitizeValueStep acc).1).length = acc.1.length := by
  intro ps
  induction ps with
  | nil => intro acc; rfl
  | cons p rest ih =>
    intro acc
    simp only [List.foldl_cons, ih]
    unfold sanitizeValueStep
    split
    · exact replaceBytes_length (by simp [spaces])
    · rfl

theorem sanitizeValue_length (vc : List Nat) : (sanitizeValue vc).1.length = vc.length :=
  sanitizeValue_foldl_length attribution_patterns (vc, false)

theorem findFromAux_some {content pat : List Nat} :
    ∀ {fuel i pos}, findFromAux content pat fuel i = some pos →
      i ≤ pos ∧ pos + pat.length ≤ content.length := by
  intro fuel
  induction fuel with
  | zero => intro i pos h; simp [findFromAux] at h
  | succ n ih =>
    intro i pos h
    simp only [findFromAux] at h
    split at h
    · next hle =>
      split at h
      · cases h; exact ⟨le_refl _, hle⟩
      · have := ih h
        exact ⟨le_trans (Nat.le_succ i) this.1, this.2⟩
    · simp at h

theorem findFrom_some {content pat : List Nat} {start pos : Nat}
    (h : findFrom content pat start = some pos) :
    start ≤ pos ∧ pos + pat.length ≤ content.length :=
  findFromAux_some h

theorem scanValueEnd_bounds (content : List Nat) :
    ∀ (fuel ve : Nat) (paren : Int) (inStr : Bool),
      ve ≤ scanValueEnd content fuel ve paren inStr ∧
        scanValueEnd content fuel ve paren inStr ≤ max ve content.length := by
  intro fuel
  induction fuel with
  | zero => intro ve paren inStr; exact ⟨le_refl _, le_max_left _ _⟩
  | succ n ih =>
    intro ve paren inStr
    simp only [scanValueEnd]
    split
    · exact ⟨le_refl _, le_max_left _ _⟩
    · rename_i c hg
      have hlt : ve < content.length := by
        by_contra hc
        push_neg at hc
        rw [List.get?_eq_none.mpr hc] at hg
        exact Option.noConfusion hg
      have hmax : max ve content.length = content.length := Nat.max_eq_right (le_of_lt hlt)
      have step : ∀ (p : Int) (b : Bool),
          ve ≤ scanValueEnd content n (ve + 1) p b ∧
            scanValueEnd content n (ve + 1) p b ≤ max ve content.length := by
        intro p b
        have h2 := ih (ve + 1) p b
        have hm : max (ve + 1) content.length = content.length :=
          Nat.max_eq_right hlt
        constructor
        · exact le_trans (Nat.le_succ ve) h2.1
        · rw [hmax]; rw [hm] at h2; exact h2.2
      split
      · exact step _ _
      · split
        · split
          · exact ⟨Nat.le_succ ve, by rw [hmax]; exact hlt⟩
          · exact step _ _
        · split
          · exact ⟨le_refl _, le_max_left _ _⟩
          · exact step _ _

theorem findValueEnd_bounds (content : List Nat) (vs : Nat) :
    vs ≤ findValueEnd content vs ∧ findValueEnd content vs ≤ max vs content.length :=
  scanValueEnd_bounds content (content.length + 1) vs 0 false

theorem findValueEnd_le {content : List Nat} {vs : Nat} (h : vs ≤ content.length) :
    findValueEnd content vs ≤ content.length := by
  have := (findValueEnd_bounds content vs).2
  rwa [Nat.max_eq_right h] at this

theorem sliceOf_length {l : List Nat} {a b : Nat} (hb : b ≤ l.length) :
    (sliceOf l a b).length = b - a := by
  simp only [sliceOf, List.length_take, List.length_drop]
  omega

theorem setSlice_length {l v : List Nat} {a b : Nat} (hab : a ≤ b) (hb : b ≤ l.length)
    (hv : v.length = b - a) : (setSlice l a b v).length = l.length := by
  simp only [setSlice, List.length_append, List.length_take, List.length_drop, hv]
  omega

theorem scrubKeyAux_length (pat : List Nat) :
    ∀ (fuel : Nat) (content : List Nat) (start : Nat) (ch : Bool),
      ((scrubKeyAux pat fuel content start ch).1).length = content.length := by
  intro fuel
  induction fuel with
  | zero => intro content start ch; rfl
  | succ n ih =>
    intro content start ch
    simp only [scrubKeyAux]
    cases hf : findFrom content pat start with
    | none => rfl
    | some pos =>
      have hpos := findFrom_some hf
      have hvs : pos + pat.length ≤ content.length := hpos.2
      have hve1 : pos + pat.length ≤ findValueEnd content (pos + pat.length) :=
        (findValueEnd_bounds content _).1
      have hve2 : findValueEnd content (pos + pat.length) ≤ content.length :=
        findValueEnd_le hvs
      simp only [ih]
      split
      · rw [setSlice_length hve1 hve2]
        rw [sanitizeValue_length, sliceOf_length hve2]
      · rfl

theorem scrubKey_length (content pat : List Nat) (ch : Bool) :
    ((scrubKey content pat ch).1).length = content.length :=
  scrubKeyAux_length pat (content.length + 1) content 0 ch

theorem scoped_scan_foldl_length :
    ∀ (ps : List (List Nat)) (acc : List Nat × Bool),
      ((ps.foldl (fun acc pat => scrubKey acc.1 pat acc.2) acc).1).length = acc.1.length := by
  intro ps
  induction ps with
  | nil => intro acc; rfl
  | cons p rest ih =>
    intro acc
    simp only [List.foldl_cons, ih, scrubKey_length]

theorem scoped_signature_scan_length (content : List Nat) (ch : Bool) :
    ((scoped_signature_scan content ch).1).length = content.length :=
  scoped_scan_foldl_length metadata_strings (content, ch)

theorem unscoped_scan_foldl_length :
    ∀ (ps : List (List Nat)) (acc : List Nat × Bool),
      ((ps.foldl
          (fun acc pat =>
            if seqContains pat acc.1 then (replaceBytes acc.1 pat (spaces pat.length), true)
            else acc)
          acc).1).length = acc.1.length := by
  intro ps
  induction ps with
  | nil => intro acc; rfl
  | cons p rest ih =>
    intro acc
    simp only [List.foldl_cons, ih]
    split
    · exact replaceBytes_length (by simp [spaces])
    · rfl

theorem unscoped_signature_scan_length (content : List Nat) :
    ((unscoped_signature_scan content).1).length = content.length :=
  unscoped_scan_foldl_length attribution_patterns (content, false)

/-! ## Claims C3, C4, C10: the Signature Scanner -/

/-- Claim C3: the scoped scan of sanitize_binary_signatures resolves each
metadata value span with the literal-string-aware scanner. In order: the
span scanner is total, never leaves the buffer (an unclosed span ends at
end-of-buffer, raising nothing), and only moves the cursor forward; an
opening parenthesis suppresses slash detection until the depth returns to
zero, where the closing parenthesis ends the span; a slash or a double
angle bracket outside any literal string ends the span, a single angle
bracket does not; an unclosed literal string runs to end-of-buffer; on the
canonical example only the vendor tokens inside the /Producer value are
space-padded and /Title (Report) is untouched; and on the resume example
the key token occurring inside the first resolved span is skipped because
the scan resumes from the end of the span, leaving the trailing
parenthesized word untouched. -/
theorem claim_C3_scoped_scan :
    (∀ (content : List Nat) (vs : Nat),
        vs ≤ findValueEnd content vs ∧ findValueEnd content vs ≤ max vs content.length)
    ∧ findValueEnd (toBytes " (a/b)(c)/x") 0 = 6
    ∧ findValueEnd (toBytes "abc/def") 0 = 3
    ∧ findValueEnd (toBytes "ab>>cd") 0 = 2
    ∧ findValueEnd (toBytes "a>b/c") 0 = 3
    ∧ findValueEnd (toBytes "(abc") 0 = 4
    ∧ scoped_signature_scan (toBytes "/Producer (Adobe Acrobat 9.0)/Title (Report)") false
        = (toBytes "/Producer (              9.0)/Title (Report)", true)
    ∧ scoped_signature_scan (toBytes "/Author (/AuthorWord) (word)") false
        = (toBytes "/Author (/Author    ) (word)", true) :=
  ⟨findValueEnd_bounds, by decide, by decide, by decide, by decide, by decide,
   by decide, by decide⟩

/-- Claim C4: every byte-level signature substitution pass is
length-preserving: both sanitize_binary_signatures and the post-save
_replace_binary_signatures pass return a buffer of exactly the input
length, for every input buffer. -/
theorem claim_C4_length_preservation :
    ∀ content : List Nat,
      ((sanitize_binary_signatures content).1).length = content.length ∧
        (_replace_binary_signatures content).length = content.length := by
  intro content
  constructor
  · unfold sanitize_binary_signatures
    rw [scoped_signature_scan_length, unscoped_signature_scan_length]
  · unfold _replace_binary_signatures
    simp only [List.foldl_cons, List.foldl_nil]
    split
    · split
      · rw [replaceBytes_length (by simp [spaces, toBytes]),
          replaceBytes_length (by simp [spaces, toBytes])]
      · rw [replaceBytes_length (by simp [spaces, toBytes])]
    · split
      · rw [replaceBytes_length (by simp [spaces, toBytes])]
      · rfl

/-- Claim C10: sanitize_binary_signatures can report changes_made without
changing a byte: a /Producer value containing the case variant AdObE
matches the case-insensitive containment test, so the flag is set, but the
substitution only replaces the exact-case variants of the fixed list, none
of which occur, so the output bytes equal the input bytes. -/
theorem claim_C10_flag_without_change :
    sanitize_binary_signatures (toBytes "/Producer (AdObE)")
      = (toBytes "/Producer (AdObE)", true) := by
  decide

/-! ## Lemmas for the Structural Sanitizer (claim C6) -/

theorem Dict.erase_apply (d : Dict) (k x : String) :
    d.erase k x = if x = k then none else d x := rfl

theorem Dict.set_apply (d : Dict) (k v : String) (x : String) :
    d.set k v x = if x = k then some v else d x := rfl

theorem eraseFold_apply :
    ∀ (ks : List String) (d : Dict) (x : String),
      (ks.foldl Dict.erase d) x = if x ∈ ks then none else d x := by
  intro ks
  induction ks with
  | nil => intro d x; simp
  | cons a rest ih =>
    intro d x
    simp only [List.foldl_cons, ih, Dict.erase_apply, List.mem_cons]
    by_cases hx : x ∈ rest
    · simp [hx]
    · by_cases ha : x = a <;> simp [hx, ha]

theorem eraseFold_idem (ks : List String) (d : Dict) :
    ks.foldl Dict.erase (ks.foldl Dict.erase d) = ks.foldl Dict.erase d := by
  funext x
  rw [eraseFold_apply, eraseFold_apply]
  by_cases hx : x ∈ ks <;> simp [hx]

/-- Generic fold machinery: a per-key rewriting step that touches only its
own key and always leaves a stable value there is a closure operator on
dictionaries. StableVal k v reads: value v at key k is left alone by the
step for k. -/
theorem procFold_lookup_of_not_mem (process : Dict → String → Dict)
    (hA : ∀ (d : Dict) (k x : String), x ≠ k → process d k x = d x) :
    ∀ (ks : List String) (d : Dict) (x : String), x ∉ ks →
      (ks.foldl process d) x = d x := by
  intro ks
  induction ks with
  | nil => intro d x _; rfl
  | cons a rest ih =>
    intro d x hx
    simp only [List.mem_cons, not_or] at hx
    simp only [List.foldl_cons]
    rw [ih _ _ hx.2, hA d a x hx.1]

theorem procFold_stable_of_mem (process : Dict → String → Dict)
    (StableVal : String → Option String → Prop)
    (hA : ∀ (d : Dict) (k x : String), x ≠ k → process d k x = d x)
    (hB : ∀ (d : Dict) (k : String), StableVal k (process d k k)) :
    ∀ (ks : List String) (d : Dict) (k : String), k ∈ ks →
      StableVal k ((ks.foldl process d) k) := by
  intro ks
  induction ks with
  | nil => intro d k hk; simp at hk
  | cons a rest ih =>
    intro d k hk
    simp only [List.foldl_cons]
    by_cases hmem : k ∈ rest
    · exact ih _ _ hmem
    · have hka : k = a := by
        rcases List.mem_cons.mp hk with h | h
        · exact h
        · exact absurd h hmem
      subst hka
      rw [procFold_lookup_of_not_mem process hA rest _ _ hmem]
      exact hB d k

theorem procFold_fix (process : Dict → String → Dict) :
    ∀ (ks : List String) (d : Dict), (∀ k ∈ ks, process d k = d) →
      ks.foldl process d = d := by
  intro ks
  induction ks with
  | nil => intro d _; rfl
  | cons a rest ih =>
    intro d h
    simp only [List.foldl_cons]
    rw [h a (List.mem_cons_self a rest)]
    exact ih d fun k hk => h k (List.mem_cons_of_mem a hk)

theorem procFold_idem (process : Dict → String → Dict)
    (StableVal : String → Option String → Prop)
    (hA : ∀ (d : Dict) (k x : String), x ≠ k → process d k x = d x)
    (hB : ∀ (d : Dict) (k : String), StableVal k (process d k k))
    (hC : ∀ (d : Dict) (k : String), StableVal k (d k) → process d k = d)
    (ks : List String) (d : Dict) :
    ks.foldl process (ks.foldl process d) = ks.foldl process d :=
  procFold_fix process ks _ fun k hk =>
    hC _ k (procFold_stable_of_mem process StableVal hA hB ks d k hk)


theorem processFontKey_other (d : Dict) (k x : String) (hx : x ≠ k) :
    processFontKey d k x = d x := by
  cases hdk : d k with
  | none => simp only [processFontKey, hdk]
  | some v =>
    simp only [processFontKey, hdk]
    split
    · split
      · simp [Dict.set_apply, hx]
      · split
        · simp [Dict.set_apply, hx]
        · simp [Dict.erase_apply, hx]
    · split
      · simp [Dict.erase_apply, hx]
      · rfl

theorem processFontKey_stable (d : Dict) (k : String) :
    ∀ s, processFontKey d k k = some s →
      containsAttr s font_attribution_patterns = false ∧ k ∉ font_always_remove := by
  intro s
  cases hdk : d k with
  | none => simp only [processFontKey, hdk]; intro hs; exact Option.noConfusion hs
  | some v =>
    simp only [processFontKey, hdk]
    split
    · split
      · next hbase =>
        simp only [Dict.set_apply, eq_self_iff_true, if_true, Option.some.injEq]
        intro hs
        subst hs
        subst hbase
        exact ⟨by decide, by decide⟩
      · split
        · next hname =>
          simp only [Dict.set_apply, eq_self_iff_true, if_true, Option.some.injEq]
          intro hs
          subst hs
          rcases hname with h | h <;> subst h <;> exact ⟨by decide, by decide⟩
        · simp only [Dict.erase_apply, eq_self_iff_true, if_true]
          intro hs
          exact Option.noConfusion hs
    · next hmatch =>
      split
      · simp only [Dict.erase_apply, eq_self_iff_true, if_true]
        intro hs
        exact Option.noConfusion hs
      · next hmem =>
        rw [hdk]
        intro hs
        cases hs
        exact ⟨Bool.not_eq_true _ ▸ hmatch, hmem⟩

theorem processFontKey_of_stable (d : Dict) (k : String)
    (hv : ∀ s, d k = some s →
      containsAttr s font_attribution_patterns = false ∧ k ∉ font_always_remove) :
    processFontKey d k = d := by
  cases hdk : d k with
  | none => simp only [processFontKey, hdk]
  | some v =>
    have := hv v hdk
    simp only [processFontKey, hdk, this.1, Bool.false_eq_true, if_false]
    simp [this.2]

theorem fontFields_idem (d : Dict) :
    font_attribution_keys.foldl processFontKey (font_attribution_keys.foldl processFontKey d)
      = font_attribution_keys.foldl processFontKey d :=
  procFold_idem processFontKey
    (fun k v => ∀ s, v = some s →
      containsAttr s font_attribution_patterns = false ∧ k ∉ font_always_remove)
    (fun d k x hx => processFontKey_other d k x hx)
    (fun d k => processFontKey_stable d k)
    (fun d k hv => processFontKey_of_stable d k hv)
    font_attribution_keys d

theorem processDescKey_other (d : Dict) (k x : String) (hx : x ≠ k) :
    processDescKey d k x = d x := by
  cases hdk : d k with
  | none => simp only [processDescKey, hdk]
  | some v =>
    simp only [processDescKey, hdk]
    split
    · split
      · simp [Dict.set_apply, hx]
      · simp [Dict.erase_apply, hx]
    · split
      · simp [Dict.erase_apply, hx]
      · rfl

theorem processDescKey_stable (d : Dict) (k : String) :
    ∀ s, processDescKey d k k = some s →
      containsAttr s desc_attribution_patterns = false ∧ k ∉ desc_always_remove := by
  intro s
  cases hdk : d k with
  | none => simp only [processDescKey, hdk]; intro hs; exact Option.noConfusion hs
  | some v =>
    simp only [processDescKey, hdk]
    split
    · split
      · next hname =>
        simp only [Dict.set_apply, eq_self_iff_true, if_true, Option.some.injEq]
        intro hs
        subst hs
        rcases hname with h | h <;> subst h <;> exact ⟨by decide, by decide⟩
      · simp only [Dict.erase_apply, eq_self_iff_true, if_true]
        intro hs
        exact Option.noConfusion hs
    · next hmatch =>
      split
      · simp only [Dict.erase_apply, eq_self_iff_true, if_true]
        intro hs
        exact Option.noConfusion hs
      · next hmem =>
        rw [hdk]
        intro hs
        cases hs
        exact ⟨Bool.not_eq_true _ ▸ hmatch, hmem⟩

theorem processDescKey_of_stable (d : Dict) (k : String)
    (hv : ∀ s, d k = some s →
      containsAttr s desc_attribution_patterns = false ∧ k ∉ desc_always_remove) :
    processDescKey d k = d := by
  cases hdk : d k with
  | none => simp only [processDescKey, hdk]
  | some v =>
    have := hv v hdk
    simp only [processDescKey, hdk, this.1, Bool.false_eq_true, if_false]
    simp [this.2]

theorem sanitize_font_descriptor_idem (d : Dict) :
    _sanitize_font_descriptor (_sanitize_font_descriptor d) = _sanitize_font_descriptor d :=
  procFold_idem processDescKey
    (fun k v => ∀ s, v = some s →
      containsAttr s desc_attribution_patterns = false ∧ k ∉ desc_always_remove)
    (fun d k x hx => processDescKey_other d k x hx)
    (fun d k => processDescKey_stable d k)
    (fun d k hv => processDescKey_of_stable d k hv)
    desc_keys d

theorem sanitizeFontObj_idem (f : FontObj) :
    sanitizeFontObj (sanitizeFontObj f) = sanitizeFontObj f := by
  unfold sanitizeFontObj
  simp only [fontFields_idem, Option.map_map]
  cases f.descriptor with
  | none => rfl
  | some d => simp [Function.comp, sanitize_font_descriptor_idem]

theorem stripAnnotMeta_apply (a : Dict) (x : String) :
    stripAnnotMeta a x = if x ∈ annot_metadata_keys then none else a x :=
  eraseFold_apply annot_metadata_keys a x

theorem stripAnnotMeta_idem (a : Dict) :
    stripAnnotMeta (stripAnnotMeta a) = stripAnnotMeta a :=
  eraseFold_idem annot_metadata_keys a

theorem stripAnnotMeta_subtype (a : Dict) :
    stripAnnotMeta a "/Subtype" = a "/Subtype" := by
  rw [stripAnnotMeta_apply, if_neg (by decide)]

theorem keepAnnot_of_kept {a b : Dict} (h : keepAnnot a = some b) :
    keepAnnot b = some b := by
  unfold keepAnnot at h ⊢
  cases hst : a "/Subtype" with
  | none => rw [hst] at h; exact Option.noConfusion h
  | some st =>
    rw [hst] at h
    have h2 : (if st ∈ safe_types then some (stripAnnotMeta a) else none) = some b := h
    by_cases hsafe : st ∈ safe_types
    · rw [if_pos hsafe] at h2
      cases h2
      have hbs : stripAnnotMeta a "/Subtype" = some st := by
        rw [stripAnnotMeta_subtype, hst]
      rw [hbs]
      show (if st ∈ safe_types then some (stripAnnotMeta (stripAnnotMeta a)) else none)
        = some (stripAnnotMeta a)
      rw [if_pos hsafe, stripAnnotMeta_idem]
    · rw [if_neg hsafe] at h2
      exact Option.noConfusion h2

theorem filterMap_eq_self {f : Dict → Option Dict} :
    ∀ {l : List Dict}, (∀ b ∈ l, f b = some b) → l.filterMap f = l := by
  intro l
  induction l with
  | nil => intro _; rfl
  | cons a rest ih =>
    intro h
    rw [List.filterMap_cons, h a (List.mem_cons_self a rest),
      ih fun b hb => h b (List.mem_cons_of_mem a hb)]

theorem sanitizeAnnots_idem (oa : Option (List Dict)) :
    sanitizeAnnots (sanitizeAnnots oa) = sanitizeAnnots oa := by
  cases oa with
  | none => rfl
  | some l =>
    simp only [sanitizeAnnots]
    by_cases hk : (l.filterMap keepAnnot).isEmpty
    · rw [if_pos hk]
    · rw [if_neg hk]
      simp only [sanitizeAnnots]
      have hfix : (l.filterMap keepAnnot).filterMap keepAnnot = l.filterMap keepAnnot := by
        apply filterMap_eq_self
        intro b hb
        rcases List.mem_filterMap.mp hb with ⟨a, _, ha⟩
        exact keepAnnot_of_kept ha
      rw [hfix, if_neg hk]

theorem dangerFold_eq :
    ∀ (ks : List String) (d : PdfDoc),
      ks.foldl
          (fun d k =>
            { d with root := d.root.erase k, rootNames := d.rootNames.map (Dict.erase · k) })
          d
        = { d with root := ks.foldl Dict.erase d.root,
                   rootNames := d.rootNames.map fun nd => ks.foldl Dict.erase nd } := by
  intro ks
  induction ks with
  | nil =>
    intro d
    cases d with
    | mk root names trailer pages => cases names <;> simp
  | cons a rest ih =>
    intro d
    simp only [List.foldl_cons]
    rw [ih]
    cases d with
    | mk root names trailer pages =>
      cases names with
      | none => simp
      | some nd => simp [Option.map_map, Function.comp]

theorem sanitize_embedded_objects_eq (doc : PdfDoc) :
    sanitize_embedded_objects doc =
      { root := ((dangerous_objects.foldl Dict.erase doc.root).erase "/AcroForm").erase
          "/Outlines",
        rootNames := doc.rootNames.map fun nd => dangerous_objects.foldl Dict.erase nd,
        trailer := doc.trailer.erase "/Info",
        pages := doc.pages.map fun p =>
          { annots := sanitizeAnnots p.annots,
            fonts := p.fonts.map (List.map fun nf => (nf.1, sanitizeFontObj nf.2)) } } := by
  unfold sanitize_embedded_objects _sanitize_annotations _sanitize_fonts
  rw [dangerFold_eq]
  simp [List.map_map, Function.comp]

theorem rootClean_idem (r : Dict) :
    ((dangerous_objects.foldl Dict.erase
          (((dangerous_objects.foldl Dict.erase r).erase "/AcroForm").erase
            "/Outlines")).erase "/AcroForm").erase "/Outlines"
      = ((dangerous_objects.foldl Dict.erase r).erase "/AcroForm").erase "/Outlines" := by
  funext x
  simp only [Dict.erase_apply, eraseFold_apply]
  by_cases h1 : x = "/Outlines" <;> by_cases h2 : x = "/AcroForm" <;>
    by_cases h3 : x ∈ dangerous_objects <;> simp [h1, h2, h3]

/-- Claim C6: the Structural Sanitizer is idempotent. Running
sanitize_embedded_objects (with its annotation and font sub-passes) a
second time on the output of a first run returns the document unchanged:
the second pass can produce no additional findings. -/
theorem claim_C6_sanitizer_idempotent (doc : PdfDoc) :
    sanitize_embedded_objects (sanitize_embedded_objects doc) = sanitize_embedded_objects doc := by
  rw [sanitize_embedded_objects_eq, sanitize_embedded_objects_eq]
  refine PdfDoc.mk.injEq _ _ _ _ _ _ _ _ ▸ ?_
  refine ⟨rootClean_idem doc.root, ?_, ?_, ?_⟩
  · show Option.map _ (Option.map _ doc.rootNames) = Option.map _ doc.rootNames
    cases doc.rootNames with
    | none => rfl
    | some nd => simp [eraseFold_idem]
  · show Dict.erase (Dict.erase doc.trailer "/Info") "/Info" = Dict.erase doc.trailer "/Info"
    funext x
    simp only [Dict.erase_apply]
    by_cases hx : x = "/Info" <;> simp [hx]
  · show List.map _ (List.map _ doc.pages) = List.map _ doc.pages
    rw [List.map_map]
    congr 1
    funext p
    simp only [Function.comp]
    rw [sanitizeAnnots_idem, Option.map_map]
    cases hp : p.fonts with
    | none => rfl
    | some fl => simp [List.map_map, Function.comp, sanitizeFontObj_idem]

/-! ## Lemmas for the Entropy Analyzer (claim C5) -/

theorem count_univ_sum (l : List (Fin 256)) :
    ∑ b : Fin 256, l.count b = l.length := by
  induction l with
  | nil => simp
  | cons a t ih =>
    have hterm : ∀ b : Fin 256, (a :: t).count b = t.count b + if a = b then 1 else 0 := by
      intro b
      rw [List.count_cons]
      simp [beq_iff_eq]
    simp only [hterm, Finset.sum_add_distrib, ih, Finset.sum_ite_eq, Finset.mem_univ,
      if_true, List.length_cons]

theorem entropy_term_nonneg {data : List (Fin 256)} (hlen : data.length ≠ 0) (b : Fin 256) :
    (0:ℝ) ≤
      if 0 < data.count b then
        -(((data.count b : ℝ) / (data.length : ℝ)) *
          Real.logb 2 ((data.count b : ℝ) / (data.length : ℝ)))
      else 0 := by
  split
  · next hc =>
    set p : ℝ := (data.count b : ℝ) / (data.length : ℝ) with hp
    have hn : (0:ℝ) < (data.length : ℝ) := by
      have := Nat.pos_of_ne_zero hlen
      exact_mod_cast this
    have hp0 : 0 < p := div_pos (by exact_mod_cast hc) hn
    have hp1 : p ≤ 1 := by
      rw [hp, div_le_one hn]
      exact_mod_cast List.count_le_length b data
    have hlogb : Real.logb 2 p ≤ 0 := by
      rw [← Real.log_div_log]
      exact div_nonpos_iff.mpr (Or.inr ⟨Real.log_nonpos hp0.le hp1,
        (Real.log_pos one_lt_two).le⟩)
    have := mul_nonneg hp0.le (neg_nonneg.mpr hlogb)
    linarith [this]
  · exact le_refl 0

theorem entropy_nonneg (data : List (Fin 256)) : 0 ≤ calculate_entropy data := by
  unfold calculate_entropy
  split
  · exact le_refl 0
  · next hlen => exact Finset.sum_nonneg fun b _ => entropy_term_nonneg hlen b

theorem entropy_term_bound {p : ℝ} (hp0 : 0 < p) :
    -(p * Real.logb 2 p) ≤ 8 * p + (1 / Real.log 2) * (1/256 - p) := by
  have hlog2 : (0:ℝ) < Real.log 2 := Real.log_pos one_lt_two
  have hne : Real.log 2 ≠ 0 := ne_of_gt hlog2
  have hx : (0:ℝ) < 1/(256*p) := by positivity
  have hkey := Real.log_le_sub_one_of_pos hx
  have hlogexp : Real.log (1/(256*p)) = -(8 * Real.log 2) - Real.log p := by
    rw [one_div, Real.log_inv, Real.log_mul (by norm_num : (256:ℝ) ≠ 0) (ne_of_gt hp0)]
    have h256 : Real.log 256 = 8 * Real.log 2 := by
      rw [show (256:ℝ) = 2^(8:ℕ) by norm_num, Real.log_pow]
      push_cast
      ring
    rw [h256]
    ring
  have hmul := mul_le_mul_of_nonneg_left hkey hp0.le
  have hsimp : p * (1/(256*p) - 1) = 1/256 - p := by
    field_simp
    ring
  rw [hlogexp, hsimp] at hmul
  have h1 : -(p * Real.log p) ≤ 8 * p * Real.log 2 + (1/256 - p) := by nlinarith [hmul]
  have hlogb : Real.logb 2 p = Real.log p / Real.log 2 := (Real.log_div_log).symm
  rw [hlogb, show -(p * (Real.log p / Real.log 2)) = (-(p * Real.log p)) / Real.log 2 by ring,
    div_le_iff₀ hlog2]
  have hexpand : (8 * p + (1 / Real.log 2) * (1/256 - p)) * Real.log 2
      = 8 * p * Real.log 2 + (1/256 - p) := by
    field_simp
    ring
  rw [hexpand]
  exact h1

theorem entropy_le_eight (data : List (Fin 256)) : calculate_entropy data ≤ 8 := by
  unfold calculate_entropy
  split
  · norm_num
  · next hlen =>
    have hn : (0:ℝ) < (data.length : ℝ) := by
      have := Nat.pos_of_ne_zero hlen
      exact_mod_cast this
    have hlog2 : (0:ℝ) < Real.log 2 := Real.log_pos one_lt_two
    rw [← Finset.sum_filter]
    set S := Finset.univ.filter (fun b : Fin 256 => 0 < data.count b) with hS
    have hmem : ∀ b ∈ S, 0 < data.count b := by
      intro b hb
      exact (Finset.mem_filter.mp hb).2
    have hbound : ∀ b ∈ S,
        -(((data.count b : ℝ) / (data.length : ℝ)) *
            Real.logb 2 ((data.count b : ℝ) / (data.length : ℝ)))
          ≤ 8 * ((data.count b : ℝ) / (data.length : ℝ)) +
              (1 / Real.log 2) * (1/256 - (data.count b : ℝ) / (data.length : ℝ)) := by
      intro b hb
      have hp0 : 0 < (data.count b : ℝ) / (data.length : ℝ) :=
        div_pos (by exact_mod_cast hmem b hb) hn
      exact entropy_term_bound hp0
    refine le_trans (Finset.sum_le_sum hbound) ?_
    have hsum_count : ∑ b ∈ S, (data.count b : ℝ) = (data.length : ℝ) := by
      have hnatsum : ∑ b ∈ S, data.count b = data.length := by
        rw [hS, Finset.sum_filter]
        have hterm : ∀ b : Fin 256,
            (if 0 < data.count b then data.count b else 0) = data.count b := by
          intro b
          split
          · rfl
          · next hc => omega
        simp only [hterm]
        exact count_univ_sum data
      exact_mod_cast hnatsum
    have hsum_p : ∑ b ∈ S, (data.count b : ℝ) / (data.length : ℝ) = 1 := by
      rw [← Finset.sum_div, hsum_count, div_self hn.ne']
    have hcard : (S.card : ℝ) ≤ 256 := by
      have h1 : S.card ≤ (Finset.univ : Finset (Fin 256)).card :=
        Finset.card_filter_le _ _
      have h2 : (Finset.univ : Finset (Fin 256)).card = 256 := by
        rw [Finset.card_univ, Fintype.card_fin]
      exact_mod_cast h2 ▸ h1
    have hsplit :
        ∑ b ∈ S,
            (8 * ((data.count b : ℝ) / (data.length : ℝ)) +
              (1 / Real.log 2) * (1/256 - (data.count b : ℝ) / (data.length : ℝ)))
          = 8 + (1 / Real.log 2) * ((S.card : ℝ) * (1/256) - 1) := by
      rw [Finset.sum_add_distrib, ← Finset.mul_sum, hsum_p, ← Finset.mul_sum]
      congr 1
      · ring
      · congr 1
        rw [Finset.sum_sub_distrib, hsum_p, Finset.sum_const, nsmul_eq_mul]
    rw [hsplit]
    have hfac : (1 / Real.log 2) * ((S.card : ℝ) * (1/256) - 1) ≤ 0 := by
      apply mul_nonpos_of_nonneg_of_nonpos
      · positivity
      · nlinarith [hcard]
    linarith

theorem entropy_empty : calculate_entropy [] = 0 := by
  unfold calculate_entropy
  simp

theorem entropy_replicate (b : Fin 256) (n : Nat) (hn : 0 < n) :
    calculate_entropy (List.replicate n b) = 0 := by
  unfold calculate_entropy
  rw [if_neg (by simp [Nat.pos_iff_ne_zero.mp hn])]
  apply Finset.sum_eq_zero
  intro b2 _
  have hcount : (List.replicate n b).count b2 = if b = b2 then n else 0 := by
    rw [List.count_replicate]
    simp [beq_iff_eq]
  by_cases hbb : b = b2
  · rw [hcount, if_pos hbb, if_pos hn, List.length_replicate]
    have hne : ((n:ℝ)) ≠ 0 := by exact_mod_cast Nat.pos_iff_ne_zero.mp hn
    rw [div_self hne, Real.logb_one]
    ring
  · rw [hcount, if_neg hbb]
    simp

theorem entropy_all_bytes : calculate_entropy (List.finRange 256) = 8 := by
  unfold calculate_entropy
  rw [if_neg (by simp)]
  have hcount : ∀ b : Fin 256, (List.finRange 256).count b = 1 := fun b =>
    List.count_eq_one_of_mem (List.nodup_finRange 256) (List.mem_finRange b)
  have hterm : ∀ b : Fin 256,
      (if 0 < (List.finRange 256).count b then
        -((((List.finRange 256).count b : ℝ) / ((List.finRange 256).length : ℝ)) *
          Real.logb 2 (((List.finRange 256).count b : ℝ) / ((List.finRange 256).length : ℝ)))
      else 0) = 8 / 256 := by
    intro b
    rw [hcount b, if_pos Nat.one_pos]
    have hlogval : Real.logb 2 ((1 : ℝ) / 256) = -8 := by
      rw [show ((1:ℝ)/256) = ((2:ℝ)^(8:ℕ))⁻¹ by norm_num, Real.logb_inv, Real.logb_pow,
        Real.logb_self_eq_one one_lt_two]
      norm_num
    simp only [List.length_finRange, Nat.cast_one, Nat.cast_ofNat, hlogval]
    norm_num
  rw [Finset.sum_congr rfl fun b _ => hterm b, Finset.sum_const, Finset.card_univ,
    Fintype.card_fin, nsmul_eq_mul]
  norm_num

/-! ## Claim C5: the Entropy Analyzer -/

/-- Claim C5: calculate_entropy is a pure total function into [0, 8] (the
Shannon entropy of the 256-bucket byte histogram, real-valued); the empty
buffer has entropy 0, any uniform single-byte buffer of positive length has
entropy 0, and the buffer holding each of the 256 byte values once has
entropy above 7.9 (it is exactly 8). -/
theorem claim_C5_entropy :
    (∀ data : List (Fin 256), 0 ≤ calculate_entropy data ∧ calculate_entropy data ≤ 8)
    ∧ calculate_entropy [] = 0
    ∧ (∀ (b : Fin 256) (n : Nat), 0 < n → calculate_entropy (List.replicate n b) = 0)
    ∧ 7.9 < calculate_entropy (List.finRange 256) :=
  ⟨fun data => ⟨entropy_nonneg data, entropy_le_eight data⟩,
   entropy_empty,
   fun b n hn => entropy_replicate b n hn,
   by rw [entropy_all_bytes]; norm_num⟩

/-- Witness for claim C5 at a concrete uniform buffer. -/
theorem claim_C5_entropy_witness :
    0 < 3 ∧ calculate_entropy (List.replicate 3 (0 : Fin 256)) = 0 :=
  ⟨by norm_num, claim_C5_entropy.2.2.1 0 3 (by norm_num)⟩

/-! ## Claims C1 and C9: the Forensic Validator -/

theorem stegoFold_invariant :
    ∀ (objs : List StegoObj) (acc : List StegoFinding × Bool),
      acc.2 = !acc.1.isEmpty →
        (objs.foldl stegoStep acc).2 = !(objs.foldl stegoStep acc).1.isEmpty := by
  intro objs
  induction objs with
  | nil => intro acc h; exact h
  | cons o rest ih =>
    intro acc h
    simp only [List.foldl_cons]
    apply ih
    unfold stegoStep
    split
    · simp
    · exact h

theorem detect_steganography_invariant (inp : Except String (List StegoObj)) :
    (detect_steganography inp).steganography_detected
      = !(detect_steganography inp).high_entropy_objects.isEmpty := by
  cases inp with
  | error e => rfl
  | ok objs => exact stegoFold_invariant objs ([], false) rfl

theorem detect_advanced_invariant (inp : Except String AdvView) :
    (!(detect_advanced_metadata inp).page_metadata.isEmpty ||
      !(detect_advanced_metadata inp).annotation_metadata.isEmpty ||
      !(detect_advanced_metadata inp).font_metadata.isEmpty ||
      !(detect_advanced_metadata inp).attribution_signatures.isEmpty)
      = !(AdvResults.findingsEmpty (detect_advanced_metadata inp)) := by
  cases inp with
  | error e => rfl
  | ok v =>
    have hform : (detect_advanced_metadata (.ok v)).form_metadata = [] := rfl
    have hbook : (detect_advanced_metadata (.ok v)).bookmark_metadata = [] := rfl
    have hthumb : (detect_advanced_metadata (.ok v)).thumbnail_metadata = [] := rfl
    have hcolor : (detect_advanced_metadata (.ok v)).color_profile_metadata = [] := rfl
    unfold AdvResults.findingsEmpty
    rw [hform, hbook, hthumb, hcolor]
    cases (detect_advanced_metadata (.ok v)).page_metadata.isEmpty <;>
      cases (detect_advanced_metadata (.ok v)).annotation_metadata.isEmpty <;>
      cases (detect_advanced_metadata (.ok v)).font_metadata.isEmpty <;>
      cases (detect_advanced_metadata (.ok v)).attribution_signatures.isEmpty <;> simp

/-- Claim C1: the aggregate verdict of forensic_validation is exactly the
disjunction of the found flags of checks 1 through 5; scrubbing_successful
is its negation and confidence_level is HIGH exactly on success; and the
verdict is a function of those five flags alone, so the structural check 6
and the filesystem-timestamp check 7 never contribute to it. -/
theorem claim_C1_aggregate_verdict (snap : PdfSnapshot) :
    ((forensic_validation snap).forensic_assessment.metadata_detected
        = ((forensic_validation snap).pypdf2_metadata.found_metadata ||
            (forensic_validation snap).pikepdf_metadata.found_metadata ||
            (forensic_validation snap).binary_pattern_search.found_patterns ||
            (forensic_validation snap).steganography_detection.found_suspicious ||
            (forensic_validation snap).advanced_metadata.found_metadata))
    ∧ (forensic_validation snap).forensic_assessment.scrubbing_successful
        = !(forensic_validation snap).forensic_assessment.metadata_detected
    ∧ (forensic_validation snap).forensic_assessment.confidence_level
        = (if (forensic_validation snap).forensic_assessment.scrubbing_successful
            then "HIGH" else "LOW")
    ∧ ∀ snap2 : PdfSnapshot,
        fiveFlags (forensic_validation snap2) = fiveFlags (forensic_validation snap) →
          (forensic_validation snap2).forensic_assessment
            = (forensic_validation snap).forensic_assessment := by
  refine ⟨rfl, rfl, rfl, ?_⟩
  intro snap2 h
  simp only [fiveFlags, Prod.mk.injEq] at h
  obtain ⟨h1, h2, h3, h4, h5⟩ := h
  have hm : (forensic_validation snap2).forensic_assessment.metadata_detected
      = (forensic_validation snap).forensic_assessment.metadata_detected := by
    show ((forensic_validation snap2).pypdf2_metadata.found_metadata ||
        (forensic_validation snap2).pikepdf_metadata.found_metadata ||
        (forensic_validation snap2).binary_pattern_search.found_patterns ||
        (forensic_validation snap2).steganography_detection.found_suspicious ||
        (forensic_validation snap2).advanced_metadata.found_metadata)
      = ((forensic_validation snap).pypdf2_metadata.found_metadata ||
        (forensic_validation snap).pikepdf_metadata.found_metadata ||
        (forensic_validation snap).binary_pattern_search.found_patterns ||
        (forensic_validation snap).steganography_detection.found_suspicious ||
        (forensic_validation snap).advanced_metadata.found_metadata)
    rw [h1, h2, h3, h4, h5]
  calc (forensic_validation snap2).forensic_assessment
      = { metadata_detected := (forensic_validation snap2).forensic_assessment.metadata_detected,
          scrubbing_successful :=
            !(forensic_validation snap2).forensic_assessment.metadata_detected,
          confidence_level :=
            if !(forensic_validation snap2).forensic_assessment.metadata_detected
            then "HIGH" else "LOW" } := rfl
    _ = { metadata_detected := (forensic_validation snap).forensic_assessment.metadata_detected,
          scrubbing_successful :=
            !(forensic_validation snap).forensic_assessment.metadata_detected,
          confidence_level :=
            if !(forensic_validation snap).forensic_assessment.metadata_detected
            then "HIGH" else "LOW" } := by rw [hm]
    _ = (forensic_validation snap).forensic_assessment := rfl

/-- Witness for claim C1: two concrete snapshots that differ only in the
structural-validation and filesystem-timestamp probes have identical
aggregate verdicts. -/
theorem claim_C1_aggregate_verdict_witness :
    fiveFlags
        (forensic_validation
          { fileSize := 0, pypdf2View := .error "e", pikepdfView := .error "e",
            rawContent := .error "e", stegoObjects := .error "e", advView := .error "e",
            structuralView := ⟨true, 1, 2, ["x"], ["y"], ["z"]⟩, fsTimes := .ok (1, 2, 3) })
      = fiveFlags
        (forensic_validation
          { fileSize := 0, pypdf2View := .error "e", pikepdfView := .error "e",
            rawContent := .error "e", stegoObjects := .error "e", advView := .error "e",
            structuralView := ⟨false, 0, 0, [], [], []⟩, fsTimes := .error "e" })
    ∧ (forensic_validation
          { fileSize := 0, pypdf2View := .error "e", pikepdfView := .error "e",
            rawContent := .error "e", stegoObjects := .error "e", advView := .error "e",
            structuralView := ⟨true, 1, 2, ["x"], ["y"], ["z"]⟩,
            fsTimes := .ok (1, 2, 3) }).forensic_assessment
        = (forensic_validation
          { fileSize := 0, pypdf2View := .error "e", pikepdfView := .error "e",
            rawContent := .error "e", stegoObjects := .error "e", advView := .error "e",
            structuralView := ⟨false, 0, 0, [], [], []⟩,
            fsTimes := .error "e" }).forensic_assessment :=
  ⟨rfl,
   (claim_C1_aggregate_verdict
      { fileSize := 0, pypdf2View := .error "e", pikepdfView := .error "e",
        rawContent := .error "e", stegoObjects := .error "e", advView := .error "e",
        structuralView := ⟨false, 0, 0, [], [], []⟩, fsTimes := .error "e" }).2.2.2
      { fileSize := 0, pypdf2View := .error "e", pikepdfView := .error "e",
        rawContent := .error "e", stegoObjects := .error "e", advView := .error "e",
        structuralView := ⟨true, 1, 2, ["x"], ["y"], ["z"]⟩, fsTimes := .ok (1, 2, 3) }
      rfl⟩

/-- Claim C9: in every result of forensic_validation, each of the five
metadata checks reports found exactly when its details collection is
non-empty: the two extraction dictionaries, the matched-pattern list, the
high-entropy-object list, and the full set of advanced-metadata finding
lists (the four lists the source never populates included). -/
theorem claim_C9_found_iff_details (snap : PdfSnapshot) :
    (forensic_validation snap).pypdf2_metadata.found_metadata
        = !(forensic_validation snap).pypdf2_metadata.details.isEmpty
    ∧ (forensic_validation snap).pikepdf_metadata.found_metadata
        = !(forensic_validation snap).pikepdf_metadata.details.isEmpty
    ∧ (forensic_validation snap).binary_pattern_search.found_patterns
        = !(forensic_validation snap).binary_pattern_search.patterns.isEmpty
    ∧ (forensic_validation snap).steganography_detection.found_suspicious
        = !(forensic_validation
            snap).steganography_detection.details.high_entropy_objects.isEmpty
    ∧ (forensic_validation snap).advanced_metadata.found_metadata
        = !(AdvResults.findingsEmpty (forensic_validation snap).advanced_metadata.details) := by
  refine ⟨rfl, rfl, rfl, ?_, ?_⟩
  · exact detect_steganography_invariant snap.stegoObjects
  · exact detect_advanced_invariant snap.advView

/-! ## Claims C2, C7 and C8: the Orchestrator -/

/-- Claim C2: scrub_pdf tries the strategies in the fixed priority order
reconstruct (pikepdf_advanced), in-place structural clear
(pikepdf_standard), PyPDF2 minimal rewrite (pypdf2); as soon as an earlier
sanitized candidate validates clean no later strategy is invoked, so the
invoked list is exactly the prefix of the priority order up to the first
full success; the accepted candidate is the first fully successful
strategy; and the all-methods-failed error is only ever reported after all
three strategies were invoked. -/
theorem claim_C2_strategy_order (env : ScrubEnv) (hin : env.inputExists = true)
    (hraise : env.copyRaises = false) :
    ((scrub_pdf env).invoked
        = (if fullSuccess env.m1 then ["pikepdf_advanced"]
            else if fullSuccess env.m2 then ["pikepdf_advanced", "pikepdf_standard"]
            else ["pikepdf_advanced", "pikepdf_standard", "pypdf2"]))
    ∧ ((scrub_pdf env).accepted
        = (if fullSuccess env.m1 then some "pikepdf_advanced"
            else if fullSuccess env.m2 then some "pikepdf_standard"
            else if fullSuccess env.m3 then some "pypdf2"
            else none))
    ∧ ((scrub_pdf env).termination = ScrubTermination.failedAll →
        (scrub_pdf env).invoked = methodNames) := by
  obtain ⟨i, o, ⟨a1, b1, c1⟩, ⟨a2, b2, c2⟩, ⟨a3, b3, c3⟩, cr⟩ := env
  simp only at hin hraise
  subst hin
  subst hraise
  revert o a1 b1 c1 a2 b2 c2 a3 b3 c3
  decide

/-- Witness for claim C2 at a run whose first strategy validates clean. -/
theorem claim_C2_strategy_order_witness :
    ((⟨true, false, ⟨true, true, true⟩, ⟨false, false, false⟩, ⟨false, false, false⟩,
        false⟩ : ScrubEnv).inputExists = true)
    ∧ ((⟨true, false, ⟨true, true, true⟩, ⟨false, false, false⟩, ⟨false, false, false⟩,
        false⟩ : ScrubEnv).copyRaises = false)
    ∧ (((scrub_pdf ⟨true, false, ⟨true, true, true⟩, ⟨false, false, false⟩,
          ⟨false, false, false⟩, false⟩).invoked
        = (if fullSuccess (⟨true, true, true⟩ : MethodBehavior) then ["pikepdf_advanced"]
            else if fullSuccess (⟨false, false, false⟩ : MethodBehavior) then
              ["pikepdf_advanced", "pikepdf_standard"]
            else ["pikepdf_advanced", "pikepdf_standard", "pypdf2"]))
      ∧ ((scrub_pdf ⟨true, false, ⟨true, true, true⟩, ⟨false, false, false⟩,
            ⟨false, false, false⟩, false⟩).accepted
          = (if fullSuccess (⟨true, true, true⟩ : MethodBehavior) then some "pikepdf_advanced"
              else if fullSuccess (⟨false, false, false⟩ : MethodBehavior) then
                some "pikepdf_standard"
              else if fullSuccess (⟨false, false, false⟩ : MethodBehavior) then some "pypdf2"
              else none))
      ∧ ((scrub_pdf ⟨true, false, ⟨true, true, true⟩, ⟨false, false, false⟩,
            ⟨false, false, false⟩, false⟩).termination = ScrubTermination.failedAll →
          (scrub_pdf ⟨true, false, ⟨true, true, true⟩, ⟨false, false, false⟩,
            ⟨false, false, false⟩, false⟩).invoked = methodNames)) :=
  ⟨rfl, rfl,
   claim_C2_strategy_order
     ⟨true, false, ⟨true, true, true⟩, ⟨false, false, false⟩, ⟨false, false, false⟩, false⟩
     rfl rfl⟩

/-- Counterexample to claim C7 as stated: in a run whose input exists, in
which a file already sits at the named output path, and in which every
strategy fails, scrub_pdf keys its result off os.path.exists(output_path)
and therefore returns success over the stale pre-existing file: the
termination is not the all-methods-failed error even though every strategy
failed and nothing was accepted. -/
theorem claim_C7_counterexample : ¬ c7_claim := by
  intro h
  have h3 := (h staleOutputEnv rfl).2 ⟨rfl, rfl, rfl, rfl⟩
  exact absurd h3.1 (by decide)

/-- Claim C7 as amended: provided the named output path is not already
occupied before the call (and the copy step does not raise), scrub_pdf
either succeeds with an accepted candidate, the output file present and the
two reports returned, or fails clearly with no file at the output path; and
whenever every strategy fails the result is the all-methods-failed error
with no output file produced. -/
theorem claim_C7_amended (env : ScrubEnv) (hraise : env.copyRaises = false)
    (hpre : env.outputPreexists = false) :
    (((scrub_pdf env).termination = ScrubTermination.success ∧
        (scrub_pdf env).accepted.isSome = true ∧
        (scrub_pdf env).outputPresent = true ∧ (scrub_pdf env).reportsReturned = true) ∨
      ((scrub_pdf env).termination ≠ ScrubTermination.success ∧
        (scrub_pdf env).outputPresent = false))
    ∧ (allStrategiesFail env →
        (scrub_pdf env).termination = ScrubTermination.failedAll ∧
          (scrub_pdf env).outputPresent = false) := by
  obtain ⟨i, o, ⟨a1, b1, c1⟩, ⟨a2, b2, c2⟩, ⟨a3, b3, c3⟩, cr⟩ := env
  simp only at hraise hpre
  subst hraise
  subst hpre
  simp only [allStrategiesFail]
  revert i a1 b1 c1 a2 b2 c2 a3 b3 c3
  decide

/-- Witness for the amended claim C7 at a run in which every strategy
fails and the output path starts empty. -/
theorem claim_C7_amended_witness :
    ((⟨true, false, ⟨false, false, false⟩, ⟨false, false, false⟩, ⟨false, false, false⟩,
        false⟩ : ScrubEnv).copyRaises = false)
    ∧ ((⟨true, false, ⟨false, false, false⟩, ⟨false, false, false⟩, ⟨false, false, false⟩,
        false⟩ : ScrubEnv).outputPreexists = false)
    ∧ ((((scrub_pdf ⟨true, false, ⟨false, false, false⟩, ⟨false, false, false⟩,
            ⟨false, false, false⟩, false⟩).termination = ScrubTermination.success ∧
          (scrub_pdf ⟨true, false, ⟨false, false, false⟩, ⟨false, false, false⟩,
            ⟨false, false, false⟩, false⟩).accepted.isSome = true ∧
          (scrub_pdf ⟨true, false, ⟨false, false, false⟩, ⟨false, false, false⟩,
            ⟨false, false, false⟩, false⟩).outputPresent = true ∧
          (scrub_pdf ⟨true, false, ⟨false, false, false⟩, ⟨false, false, false⟩,
            ⟨false, false, false⟩, false⟩).reportsReturned = true) ∨
        ((scrub_pdf ⟨true, false, ⟨false, false, false⟩, ⟨false, false, false⟩,
            ⟨false, false, false⟩, false⟩).termination ≠ ScrubTermination.success ∧
          (scrub_pdf ⟨true, false, ⟨false, false, false⟩, ⟨false, false, false⟩,
            ⟨false, false, false⟩, false⟩).outputPresent = false))
      ∧ (allStrategiesFail
            ⟨true, false, ⟨false, false, false⟩, ⟨false, false, false⟩,
              ⟨false, false, false⟩, false⟩ →
          (scrub_pdf ⟨true, false, ⟨false, false, false⟩, ⟨false, false, false⟩,
            ⟨false, false, false⟩, false⟩).termination = ScrubTermination.failedAll ∧
          (scrub_pdf ⟨true, false, ⟨false, false, false⟩, ⟨false, false, false⟩,
            ⟨false, false, false⟩, false⟩).outputPresent = false)) :=
  ⟨rfl, rfl,
   claim_C7_amended
     ⟨true, false, ⟨false, false, false⟩, ⟨false, false, false⟩, ⟨false, false, false⟩, false⟩
     rfl rfl⟩

/-- Counterexample to claim C8 as stated: when the first strategy validates
clean but the copy of the accepted candidate to the output path raises, the
exception escapes the loop before the cleanup code runs, which is not
guarded by try/finally, and the two temporary candidate files of that
strategy remain on disk. -/
theorem claim_C8_counterexample : ¬ c8_claim := by
  intro h
  exact absurd (h copyRaisesEnv) (by decide)

/-- Claim C8 as amended: after any scrub_pdf call that terminates normally,
whether by early success, by every strategy failing, or by a rejected
input, every intermediate temporary candidate file created during the call
has been deleted; only an unhandled exception escaping the loop skips the
cleanup. -/
theorem claim_C8_amended (env : ScrubEnv)
    (h : (scrub_pdf env).termination ≠ ScrubTermination.raised) :
    (scrub_pdf env).tempsRemaining = [] := by
  obtain ⟨i, o, ⟨a1, b1, c1⟩, ⟨a2, b2, c2⟩, ⟨a3, b3, c3⟩, cr⟩ := env
  revert h
  revert i o cr a1 b1 c1 a2 b2 c2 a3 b3 c3
  decide

/-- Witness for the amended claim C8 at a successful run. -/
theorem claim_C8_amended_witness :
    ((scrub_pdf ⟨true, false, ⟨true, true, true⟩, ⟨false, false, false⟩,
        ⟨false, false, false⟩, false⟩).termination ≠ ScrubTermination.raised)
    ∧ (scrub_pdf ⟨true, false, ⟨true, true, true⟩, ⟨false, false, false⟩,
        ⟨false, false, false⟩, false⟩).tempsRemaining = [] :=
  ⟨by decide,
   claim_C8_amended
     ⟨true, false, ⟨true, true, true⟩, ⟨false, false, false⟩, ⟨false, false, false⟩, false⟩
     (by decide)⟩
